import Mathlib

/-!
Verification of the streaming tabular-transformation core of the
CityOfPhiladelphia trip-data pipeline, as a shallow embedding in Lean.

Conventions of the embedding:
* Python scalar cell values are modelled by `Val`.  A CSV cell is a string
  (`Val.vstr`); database identifiers are integers (`Val.vint`); numeric
  values convertible to a finite float are `Val.vnum`; a cell such as the
  string "nan", which `float(...)` converts to IEEE NaN rather than
  raising, is `Val.vnan`; Python `None` is `Val.vnone`.  `pyFloatParse`
  models `float(value)`: `none` on the `ValueError` path (unparsable
  text; a `None` cell would in fact raise an uncaught TypeError, grouped
  with the raising path here), `some (PyFloat.finite q)` for finite
  input, and `some PyFloat.nan` for NaN input, which the source's
  `except ValueError` does *not* catch — NaN flows on into the cache and
  index query, and because IEEE NaN compares unequal to itself the cache
  key never matches.  Cells converting to ±infinity are not modelled
  separately: they are grouped with the unparsable path, which preserves
  both observables the claims mention (the returned outcome is the
  unresolved `none`, and a repeated resolution does not re-query the
  index), since an infinite coordinate is outside every bounding box and
  its cache key, unlike NaN's, compares equal on repetition.
  `pyFloatFinite` classifies the values that convert to a *finite* float.
* Machine floats are idealised as rationals (`Rat`); the claims under
  verification do not depend on rounding error or on NaN propagation.
* petl tables are modelled by `PTable`: an explicit header plus a list of
  rows.  Lazy iteration of a pure transform chain is a function of the
  source table; statefulness that matters (the one-shot generator held by
  `AddFieldsView`, the process-global feature cache, connection state of
  the context managers) is modelled by explicit state passing.
* Python exceptions that a claim cares about are modelled with explicit
  outcome types (`BodyOutcome`, `AnonResult`); everything else is total.
-/

set_option autoImplicit false

namespace TripData

/-- Scalar cell values flowing through the pipeline.  `vnan` stands for a
cell (such as the CSV string "nan") that `float(...)` converts to IEEE
NaN instead of raising. -/
inductive Val where
  | vnone
  | vstr (s : String)
  | vint (n : Int)
  | vnum (q : Rat)
  | vnan
  deriving DecidableEq, Repr

/-- Python truthiness of a cell value (`if row[f]`, `filter(None, ...)`).
Note `bool(float('nan'))` is `True` in Python. -/
def pyTruthy : Val → Bool
  | Val.vnone => false
  | Val.vstr s => decide (s ≠ "")
  | Val.vint n => decide (n ≠ 0)
  | Val.vnum q => decide (q ≠ 0)
  | Val.vnan => true

/-- A Python float as far as the resolver observes it: a finite rational,
or NaN. -/
inductive PyFloat where
  | finite (q : Rat)
  | nan
  deriving DecidableEq, Repr

/-- `float(value)`: `none` models the raising path (`ValueError` for
unparsable text, grouped with the TypeError a `None` cell would raise);
a successful conversion yields a finite float or NaN. -/
def pyFloatParse : Val → Option PyFloat
  | Val.vnum q => some (PyFloat.finite q)
  | Val.vint n => some (PyFloat.finite (n : Rat))
  | Val.vnan => some PyFloat.nan
  | _ => none

/-- The values that convert to a *finite* float; `none` for everything
else (unparsable, missing, NaN). -/
def pyFloatFinite : Val → Option Rat
  | Val.vnum q => some q
  | Val.vint n => some (n : Rat)
  | _ => none

/-- IEEE `==` on floats as used by dict key comparison: NaN is unequal to
everything, including itself (and distinct NaN objects also fail the
identity shortcut), so a NaN-containing key never hits the cache. -/
def pfEq : PyFloat → PyFloat → Bool
  | PyFloat.nan, _ => false
  | _, PyFloat.nan => false
  | PyFloat.finite a, PyFloat.finite b => decide (a = b)

/-- IEEE `<=` on floats: any comparison with NaN is false. -/
def pfLe : PyFloat → PyFloat → Bool
  | PyFloat.nan, _ => false
  | _, PyFloat.nan => false
  | PyFloat.finite a, PyFloat.finite b => decide (a ≤ b)

/-- Python `list.insert(i, x)`: clamps a non-negative index to the length,
counts a negative index from the end (clamped to the front); the element is
always inserted, so the length always grows by one. -/
def pyInsert {α : Type} (l : List α) (i : Int) (x : α) : List α :=
  let pos : Nat := if i < 0 then l.length - (-i).toNat else min i.toNat l.length
  l.take pos ++ x :: l.drop pos

/-- Python `round(q, ndigits)` on our idealised rationals.  (Python rounds
ties to even; Lean's `round` rounds ties up.  No claim under verification
depends on tie behaviour, only on rounding being a fixed function.) -/
def roundTo (ndigits : Nat) (q : Rat) : Rat :=
  (round (q * (10 ^ ndigits : Rat)) : Int) / (10 ^ ndigits : Rat)

/-- A petl table: a header naming the columns, plus the data rows.
Transform views are modelled as functions producing a new `PTable`. -/
structure PTable where
  header : List String
  rows : List (List Val)
  deriving DecidableEq, Repr

/-- One row of petl's `stack` normalization (petl_ext.py line 72 wraps the
source in `stack(source, missing=missing)`): every data row is truncated
or padded with the `missing` sentinel to the length of the header. -/
def stackRow (missing : Val) (n : Nat) (row : List Val) : List Val :=
  row.take n ++ List.replicate (n - row.length) missing

/-- petl's `stack(source, missing=missing)` for a single source table. -/
def stackTable (missing : Val) (t : PTable) : PTable :=
  PTable.mk t.header (t.rows.map (stackRow missing t.header.length))

/-- The value of a field definition: a fixed scalar, or a callable invoked
on a row record (petl_ext.py lines 102-109 dispatch on `callable(value)`).
A computed function receives the field names and values it is bound to. -/
inductive FieldValue where
  | fixed (v : Val)
  | computed (f : List String → List Val → Val)

/-- `FieldDefinition` from petl_ext.py lines 61-65. -/
structure FieldDefinition where
  name : String
  value : FieldValue
  index : Option Int

/-- petl `Record` field access: look the name up in the bound header and
return the value at that position, if any. -/
def recordLookup (flds : List String) (row : List Val) (name : String) : Option Val :=
  match flds.findIdx? (fun s => decide (s = name)) with
  | some i => row[i]?
  | none => none

/-- The header loop of `iteraddfields` (petl_ext.py lines 92-96): for each
field definition resolve its index (`len(outhdr)` when unspecified), record
it, and insert the field name into the output header at that index.
Returns the final output header and the (definition, resolved index) list. -/
def resolveFields : List String → List FieldDefinition → List String × List (FieldDefinition × Int)
  | outhdr, [] => (outhdr, [])
  | outhdr, fd :: fs =>
    let index : Int := fd.index.getD (outhdr.length : Int)
    let rest := resolveFields (pyInsert outhdr index fd.name) fs
    (rest.1, (fd, index) :: rest.2)

/-- Evaluate a field value against the record it is bound to.  In the code
(petl_ext.py lines 101-109) a callable is invoked on `Record(row, flds)`
where `row` is the unmodified source row and `flds` the source header. -/
def evalFieldValue (flds : List String) (row : List Val) : FieldValue → Val
  | FieldValue.fixed v => v
  | FieldValue.computed f => f flds row

/-- The row loop of `iteraddfields` (petl_ext.py lines 99-110): start from
the source row, and for each (definition, index) pair insert the computed
value at the resolved index.  Every computed value is evaluated on the
source row bound to the source header `flds`. -/
def addFieldsRow (flds : List String) (ds : List (FieldDefinition × Int)) (row : List Val) : List Val :=
  ds.foldl (fun outrow di => pyInsert outrow di.2 (evalFieldValue flds row di.1.value)) row

/-- `iteraddfields(source, *fields)` (petl_ext.py lines 83-110) as a table
transform: yield the extended header, then each transformed row. -/
def iteraddfields (src : PTable) (fields : List FieldDefinition) : PTable :=
  let rf := resolveFields src.header fields
  PTable.mk rf.1 (src.rows.map (addFieldsRow src.header rf.2))

/-- One full iteration of `AddFieldsView` over its (stack-normalized)
source (petl_ext.py lines 68-80): `addfields(table, *field_tuples)`. -/
def addfieldsTable (missing : Val) (src : PTable) (fields : List FieldDefinition) : PTable :=
  iteraddfields (stackTable missing src) fields

/-- The claim's reading of the row loop (spec §4.2): each computed field is
invoked with the row bound to the header *active at its computation time*,
so a later definition's function can read fields inserted earlier in the
same call.  The header and row grow together as definitions are processed.
This definition follows the spec's words, for comparison with
`addFieldsRow`, which follows the source. -/
def specAddFields : List String → List Val → List FieldDefinition → List String × List Val
  | hdr, row, [] => (hdr, row)
  | hdr, row, fd :: fs =>
    let i : Int := fd.index.getD (hdr.length : Int)
    specAddFields (pyInsert hdr i fd.name) (pyInsert row i (evalFieldValue hdr row fd.value)) fs

/-- The table transform the claim describes: same resolved header as the
code, but each row computed by `specAddFields`. -/
def specAddFieldsTable (missing : Val) (src : PTable) (fields : List FieldDefinition) : PTable :=
  let stacked := stackTable missing src
  PTable.mk (resolveFields stacked.header fields).1
    (stacked.rows.map (fun r => (specAddFields stacked.header r fields).2))

/-- `AddFieldsView` (petl_ext.py lines 68-80).  The constructor stores
`stack(source, missing=missing)` and a *generator* over the field
definitions; `fieldsGen` models the generator's remaining items. -/
structure AddFieldsView where
  source : PTable
  fieldsGen : List FieldDefinition

/-- `AddFieldsView.__init__`: wrap the source in `stack` and hold the
field definitions as a freshly created generator. -/
def AddFieldsView.make (missing : Val) (source : PTable) (fields : List FieldDefinition) : AddFieldsView :=
  AddFieldsView.mk (stackTable missing source) fields

/-- `AddFieldsView.__iter__`: `iteraddfields(self.source, *self.fields)`
unpacks — and thereby exhausts — the stored generator, so the view handed
back for any further iteration holds no field definitions. -/
def AddFieldsView.iterate : AddFieldsView → PTable × AddFieldsView
  | AddFieldsView.mk src fs => (iteraddfields src fs, AddFieldsView.mk src [])

/-! ### Spatial resolution: `find_feature` (`__init__.py` lines 119-158) -/

/-- A bounding box as produced by `shape.bounds`: (minx, miny, maxx, maxy). -/
structure BBox where
  minx : Rat
  miny : Rat
  maxx : Rat
  maxy : Rat
  deriving DecidableEq, Repr

/-- `idx.intersection((lng, lat, lng, lat))` keeps the features whose
bounding box contains the query point; every comparison with a NaN
coordinate is false, so a NaN point intersects no box. -/
def BBox.containsPoint (b : BBox) (x y : PyFloat) : Bool :=
  pfLe (PyFloat.finite b.minx) x && pfLe x (PyFloat.finite b.maxx)
    && pfLe (PyFloat.finite b.miny) y && pfLe y (PyFloat.finite b.maxy)

/-- A region feature: its integer `OBJECTID` and the bounding box it was
indexed under.  Exact polygon containment (`feature['shape'].contains`)
is an opaque geometric test and is passed in as a parameter. -/
structure Feature where
  id : Nat
  bbox : BBox
  deriving DecidableEq, Repr

/-- Key of the `feature_mapping` cache: (roundedLat, roundedLng, version).
The coordinates are Python floats, so a key may carry NaN. -/
abbrev CacheKey := PyFloat × PyFloat × String

/-- Dict key equality on cache keys: componentwise, with IEEE `==` on the
float components — a key holding NaN matches nothing. -/
def keyEq (p k : CacheKey) : Bool :=
  pfEq p.1 k.1 && pfEq p.2.1 k.2.1 && decide (p.2.2 = k.2.2)

/-- The process-global `feature_mapping` dict, as an association list in
which the most recent insertion shadows older entries. -/
abbrev FeatureCache := List (CacheKey × Option Feature)

/-- `key in feature_mapping` / `feature_mapping[key]` combined: `some o`
when the key is present with cached outcome `o` (which may itself be the
cached "none" outcome), `none` when the key is absent.  Uses dict key
equality, under which a NaN-bearing key is never found. -/
def cacheLookup (cache : FeatureCache) (k : CacheKey) : Option (Option Feature) :=
  match cache.find? (fun p => keyEq p.1 k) with
  | some p => some p.2
  | none => none

/-- `round(x, ndigits)` on a Python float: `round(nan, n)` is NaN. -/
def pyRound (ndigits : Nat) : PyFloat → PyFloat
  | PyFloat.finite q => PyFloat.finite (roundTo ndigits q)
  | PyFloat.nan => PyFloat.nan

/-- Lines 131-135 and 140 of `_finder`: convert both coordinates with
`float` (a raising conversion → no key, return None) and round them,
forming the cache key.  A NaN conversion succeeds and flows on. -/
def resolvedKey (version : String) (ndigits : Nat) (latv lngv : Val) : Option CacheKey :=
  match pyFloatParse latv, pyFloatParse lngv with
  | some lat0, some lng0 => some (pyRound ndigits lat0, pyRound ndigits lng0, version)
  | _, _ => none

/-- Result of one `_finder` call: the returned feature (or `none`), the
cache after the call, and whether the bounding-box index was queried. -/
structure FinderResult where
  found : Option Feature
  cache : FeatureCache
  queriedIndex : Bool
  deriving Repr

/-- The `_finder` closure returned by `find_feature(latcol, lngcol,
collection, idx, ndigits=4)` (`__init__.py` lines 127-158), with the cell
values of the row's two coordinate columns as inputs and the cache state
passed explicitly.  A raising conversion returns `none` without touching
the cache; a cached key returns the cached outcome without querying the
index; otherwise the bounding-box candidates are scanned in index order
for the first exact containment and the outcome (feature or explicit
`none`) is stored in the cache.  A NaN coordinate parses, so it reaches
the cache check — which never hits, NaN keys being unequal to every
stored key — and then the index query, whose candidate scan is empty. -/
def find_feature (contains : Feature → PyFloat → PyFloat → Bool) (idx : List Feature)
    (version : String) (ndigits : Nat) (cache : FeatureCache)
    (latv lngv : Val) : FinderResult :=
  match resolvedKey version ndigits latv lngv with
  | none => FinderResult.mk none cache false
  | some key =>
    match cacheLookup cache key with
    | some cached => FinderResult.mk cached cache false
    | none =>
      let lat := key.1
      let lng := key.2.1
      match (idx.filter (fun f => f.bbox.containsPoint lng lat)).find? (fun f => contains f lng lat) with
      | some f => FinderResult.mk (some f) ((key, some f) :: cache) true
      | none => FinderResult.mk none ((key, none) :: cache) true

/-! ### Chunked upsert: `grouper` and `todb_upsert` (taxitrips.py lines 232-271) -/

/-- Inner recursion of `grouper` for chunk size `k + 1`: emit consecutive
chunks, padding the last one to full size with `fill`.  Structural on a
fuel argument (instantiated with the list length) so that concrete
inputs evaluate. -/
def grouperGo {α : Type} (k : Nat) (fill : α) : Nat → List α → List (List α)
  | _, [] => []
  | 0, _ :: _ => []
  | fuel + 1, x :: xs =>
    (x :: (xs.take k ++ List.replicate (k - xs.length) fill))
      :: grouperGo k fill fuel (xs.drop k)

/-- `grouper(n, iterable, fillvalue)` (taxitrips.py lines 232-240):
`zip_longest` over `n` references to one iterator yields consecutive
groups of exactly `n` items, the last padded with the fill value; with
`n = 0` it yields nothing. -/
def grouper {α : Type} (n : Nat) (fill : α) (l : List α) : List (List α) :=
  match n with
  | 0 => []
  | k + 1 => grouperGo k fill l.length l

/-- One element yielded by petl's `values(columns)`: `operator.itemgetter`
over the resolved column indices returns the *bare cell value* when the
column list has a single element, and a tuple of values otherwise. -/
inductive DbRow where
  | scalar (v : Val)
  | tuple (vs : List Val)
  deriving DecidableEq, Repr

/-- Python truthiness of a yielded element: a bare cell value is truthy
as a value (an empty string, 0 or None is falsy); a tuple is truthy
exactly when it is non-empty. -/
def DbRow.truthy : DbRow → Bool
  | DbRow.scalar v => pyTruthy v
  | DbRow.tuple vs => decide (vs ≠ [])

/-- Truthiness of an element of a padded row group: the `None` padding is
falsy, a real element is as truthy as petl yielded it.  This is the
predicate of `filter(None, row_group)` (taxitrips.py line 268), which is
meant to strip the padding but equally drops falsy bare cell values. -/
def pyTruthyOpt (o : Option DbRow) : Bool :=
  match o with
  | none => false
  | some r => r.truthy

/-- The value of row `r` at column `c` (first occurrence of `c` in the
header; rows shorter than the header would fail in petl, modelled by the
`vnone` default). -/
def cellValue (hdr : List String) (r : List Val) (c : String) : Val :=
  r.getD (hdr.findIdx (fun s => decide (s = c))) Val.vnone

/-- `table.values(columns)` with `columns = table.fieldnames()`: petl
resolves the column indices and applies `operator.itemgetter(*indices)`
to every data row — yielding bare cell values when there is exactly one
column, and tuples of values otherwise. -/
def tableValues (t : PTable) : List DbRow :=
  if t.header.length = 1 then
    t.rows.map (fun r => DbRow.scalar (cellValue t.header r (t.header.headD "")))
  else
    t.rows.map (fun r => DbRow.tuple (t.header.map (fun c => cellValue t.header r c)))

/-- The batching loop of `todb_upsert` (taxitrips.py lines 267-270): group
the yielded elements into fixed-size groups, drop the falsy elements
(primarily the padding) from each group, and hand each resulting batch to
one `executemany` call.  The returned list holds the executed batches in
execution order. -/
def todb_upsert_batches (group_size : Nat) (vals : List DbRow) : List (List DbRow) :=
  (grouper group_size none (vals.map some)).map (fun g => (g.filter pyTruthyOpt).reduceOption)

/-- `todb_upsert(table, table_name, cursor, group_size)` restricted to its
row traffic: the sequence of row batches sent to the store. -/
def todb_upsert (group_size : Nat) (t : PTable) : List (List DbRow) :=
  todb_upsert_batches group_size (tableValues t)

/-! ### Context managers: `transaction` (taxitrips.py lines 220-229) and
`db_conn` (`__init__.py` lines 222-227) -/

/-- How the managed body ends: a value, or a raised exception. -/
inductive BodyOutcome (α : Type) where
  | completes (a : α)
  | raises

/-- Observable state of the store connection. -/
structure ConnState where
  isOpen : Bool
  committed : Bool
  deriving DecidableEq, Repr

/-- `conn.commit()`. -/
def ConnState.commit (s : ConnState) : ConnState := ConnState.mk s.isOpen true

/-- `conn.close()`. -/
def ConnState.close (s : ConnState) : ConnState := ConnState.mk false s.committed

/-- The `transaction` context manager (taxitrips.py lines 220-229): open a
connection, run the body, then `conn.commit(); conn.close()`.  The
generator has no try/finally, so when the body raises, the code after the
`yield` never runs and the connection stays as the body left it. -/
def transaction {α : Type} (body : ConnState → BodyOutcome α × ConnState) : BodyOutcome α × ConnState :=
  let conn := ConnState.mk true false
  match body conn with
  | (BodyOutcome.completes a, s) => (BodyOutcome.completes a, (s.commit).close)
  | (BodyOutcome.raises, s) => (BodyOutcome.raises, s)

/-- The `db_conn` context manager (`__init__.py` lines 222-227): connect,
run the body, then `db.save(); db.close()` — again with no try/finally. -/
def db_conn {α : Type} (body : ConnState → BodyOutcome α × ConnState) : BodyOutcome α × ConnState :=
  let db := ConnState.mk true false
  match body db with
  | (BodyOutcome.completes a, s) => (BodyOutcome.completes a, (s.commit).close)
  | (BodyOutcome.raises, s) => (BodyOutcome.raises, s)

/-! ### Outlier filtering and validation (`__init__.py` lines 287-341) -/

/-- Python's built-in `abs` on our idealised rationals. -/
def pyAbs (q : Rat) : Rat := if q < 0 then -q else q

/-- Insert into an ascending-sorted list. -/
def insertSorted (x : Rat) : List Rat → List Rat
  | [] => [x]
  | y :: ys => if x ≤ y then x :: y :: ys else y :: insertSorted x ys

/-- Ascending sort, as used by `numpy.median`. -/
def sortAsc (l : List Rat) : List Rat := l.foldr insertSorted []

/-- `numpy.median`: middle element of the sorted values for odd length,
mean of the two middle elements for even length.  (numpy returns NaN for
an empty input; the claims under verification only apply it to non-empty
samples, and the `0` default never matters there.) -/
def npMedian (l : List Rat) : Rat :=
  let s := sortAsc l
  if s.length % 2 = 1 then s.getD (s.length / 2) 0
  else (s.getD (s.length / 2 - 1) 0 + s.getD (s.length / 2) 0) / 2

/-- `filter_outliers(values, scale=2)` (`__init__.py` lines 287-304):
compute the median, the absolute deviations from it and their median, and
keep the values whose deviation is at most `median_dist * scale`. -/
def filter_outliers (values : List Rat) (scale : Rat) : List Rat :=
  let median := npMedian values
  let median_dist := npMedian (values.map (fun val => pyAbs (val - median)))
  values.filter (fun val => decide (pyAbs (val - median) ≤ median_dist * scale))

/-- The spec's description of `filterOutliers(values, scale)` (spec §4.5):
return exactly the values with `|v - m| ≤ scale × MAD`, in input order,
where `m` is the median and MAD the median absolute deviation.  Follows
the spec's words, for comparison with `filter_outliers`. -/
def filterOutliersSpec (values : List Rat) (scale : Rat) : List Rat :=
  values.filter (fun v =>
    decide (|v - npMedian values| ≤ scale * npMedian (values.map (fun w => |w - npMedian values|))))

/-- `numpy.mean`. -/
def npMean (l : List Rat) : Rat := l.sum / (l.length : Rat)

/-- `numpy.std`: square root of the mean squared deviation.  The square
root is an opaque real-valued operation passed in as a parameter; none of
the verified claims depend on its values. -/
def npStd (sqrtFn : Rat → Rat) (l : List Rat) : Rat :=
  sqrtFn (npMean (l.map (fun v => (v - npMean l) ^ 2)))

/-- One record of the statistics table built by `validate_trip_lengths`
(`__init__.py` lines 318-327): a data source with the mean and standard
deviation of its outlier-filtered trip lengths. -/
structure GroupStats where
  source : String
  mean : Rat
  std : Rat
  deriving DecidableEq, Repr

/-- Statistics table of `validate_trip_lengths`: trip lengths grouped by
data source are filtered with `filter_outliers` at the default scale 2,
then each group gets its mean and standard deviation. -/
def tripStats (sqrtFn : Rat → Rat) (groups : List (String × List Rat)) : List GroupStats :=
  groups.map (fun g =>
    let filtered := filter_outliers g.2 2
    GroupStats.mk g.1 (npMean filtered) (npStd sqrtFn filtered))

/-- `itertools.combinations(l, 2)`: all unordered pairs, each once, in
input order. -/
def combinations2 {α : Type} : List α → List (α × α)
  | [] => []
  | x :: xs => xs.map (fun y => (x, y)) ++ combinations2 xs

/-- The message appended for a violating pair (`__init__.py` line 339). -/
def violationMessage (a b : String) : String :=
  a ++ " and " ++ b ++ " samples are farther apart than expected"

/-- `validate_trip_lengths` (`__init__.py` lines 306-341) from the point
where trip lengths have been grouped by data source: build the statistics
table, then for every pair of records append a violation message unless
the distance between the means is within the smaller standard deviation.
The findings are returned, never raised. -/
def validate_trip_lengths (sqrtFn : Rat → Rat) (groups : List (String × List Rat)) :
    List GroupStats × List String :=
  let table := tripStats sqrtFn groups
  let errors := (combinations2 table).foldl
    (fun errs p =>
      if pyAbs (p.1.mean - p.2.mean) ≤ min p.1.std p.2.std then errs
      else errs ++ [violationMessage p.1.source p.2.source])
    []
  (table, errors)

/-- The spec's description of the violation list (spec §4.5): one message
for each unordered pair of groups with `|mean_a − mean_b| > min(std_a,
std_b)`, and no message for any other pair.  Follows the spec's words, for
comparison with `validate_trip_lengths`. -/
def validateSpecErrors (stats : List GroupStats) : List String :=
  ((combinations2 stats).filter (fun p => decide (min p.1.std p.2.std < |p.1.mean - p.2.mean|))).map
    (fun p => violationMessage p.1.source p.2.source)

/-! ### Anonymization (`__init__.py` lines 270-285) -/

/-- What the `addfield` lambda of `anonymize` produces for one row: a cell
value, or a raised `KeyError` when a truthy raw value is absent from the
loaded mapping. -/
inductive AnonResult where
  | value (v : Val)
  | keyError
  deriving DecidableEq, Repr

/-- The per-row lambda of `anonymize` (`__init__.py` line 283):
`anon_mapping[t][row[f]] if row[f] else None`, with the surrogate
identifiers being the integer ids loaded from the ids table. -/
def anonymizeValue (mapping : Val → Option Int) (raw : Val) : AnonResult :=
  if pyTruthy raw then
    match mapping raw with
    | some i => AnonResult.value (Val.vint i)
    | none => AnonResult.keyError
  else AnonResult.value Val.vnone

/-- The whole added `Anonymized <field>` column, one result per row. -/
def anonymizeColumn (mapping : Val → Option Int) (rawValues : List Val) : List AnonResult :=
  rawValues.map (anonymizeValue mapping)

/-- Concrete field definitions exercising whether a later computed field
can read an earlier-inserted field: "a" is a fixed 42, and "b" is a
callable that reads field "a" from the record it is invoked on (and
returns the marker string "missing" when the record's header has no "a",
like `lambda rec: rec['a'] if 'a' in rec.flds else 'missing'`). -/
def c5Fields : List FieldDefinition :=
  [FieldDefinition.mk "a" (FieldValue.fixed (Val.vint 42)) Option.none,
   FieldDefinition.mk "b"
     (FieldValue.computed (fun flds row => (recordLookup flds row "a").getD (Val.vstr "missing")))
     Option.none]

/-- Concrete one-field view exercising re-iteration of `AddFieldsView`. -/
def c6View : AddFieldsView :=
  AddFieldsView.make Val.vnone (PTable.mk ["x"] [[Val.vstr "1"]])
    [FieldDefinition.mk "a" (FieldValue.fixed (Val.vint 42)) Option.none]

/-! ## Helper lemmas -/

theorem pyInsert_length {α : Type} (l : List α) (i : Int) (x : α) :
    (pyInsert l i x).length = l.length + 1 := by
  have h : ∀ pos : Nat, (l.take pos ++ x :: l.drop pos).length = l.length + 1 := by
    intro pos
    simp only [List.length_append, List.length_cons, List.length_take, List.length_drop]
    omega
  simpa only [pyInsert] using h _

theorem stackRow_length (missing : Val) (n : Nat) (row : List Val) :
    (stackRow missing n row).length = n := by
  simp only [stackRow, List.length_append, List.length_take, List.length_replicate]
  omega

theorem resolveFields_fst_length (fs : List FieldDefinition) :
    ∀ hdr : List String, (resolveFields hdr fs).1.length = hdr.length + fs.length := by
  induction fs with
  | nil => intro hdr; simp [resolveFields]
  | cons fd fs ih =>
    intro hdr
    simp only [resolveFields, List.length_cons]
    rw [ih, pyInsert_length]
    omega

theorem resolveFields_snd_length (fs : List FieldDefinition) :
    ∀ hdr : List String, (resolveFields hdr fs).2.length = fs.length := by
  induction fs with
  | nil => intro hdr; simp [resolveFields]
  | cons fd fs ih =>
    intro hdr
    simp only [resolveFields, List.length_cons]
    rw [ih]

theorem foldl_pyInsert_length (g : FieldDefinition × Int → Val) (ds : List (FieldDefinition × Int)) :
    ∀ acc : List Val,
      (ds.foldl (fun outrow di => pyInsert outrow di.2 (g di)) acc).length = acc.length + ds.length := by
  induction ds with
  | nil => intro acc; simp
  | cons d ds ih =>
    intro acc
    simp only [List.foldl_cons, List.length_cons]
    rw [ih, pyInsert_length]
    omega

theorem addFieldsRow_length (flds : List String) (row : List Val) (ds : List (FieldDefinition × Int)) :
    (addFieldsRow flds ds row).length = row.length + ds.length :=
  foldl_pyInsert_length (fun di => evalFieldValue flds row di.1.value) ds row

/-! ## Claim theorems -/

/-- C1: every row produced by `addfields` (`AddFieldsView`) has length
equal to the output header's length — ragged input rows are first
normalized against the source header (padding with the declared missing
sentinel), then each defined field insertion grows row and header
together, so `len(outputRow) == len(outputHeader)` for every emitted row. -/
theorem addfields_rows_match_header_length (missing : Val) (src : PTable)
    (fields : List FieldDefinition) (r : List Val)
    (hr : r ∈ (addfieldsTable missing src fields).rows) :
    r.length = (addfieldsTable missing src fields).header.length := by
  simp only [addfieldsTable, iteraddfields, stackTable, List.map_map, List.mem_map,
    Function.comp] at hr
  obtain ⟨r0, _, rfl⟩ := hr
  simp only [addfieldsTable, iteraddfields, stackTable]
  rw [addFieldsRow_length, stackRow_length, resolveFields_fst_length, resolveFields_snd_length]

/-- Witness for C1 at a concrete ragged table: the source row has an
extra cell, gets truncated to the one-column header, and the added field
brings the emitted row to the extended header's length. -/
theorem addfields_rows_match_header_length_witness :
    [Val.vstr "v", Val.vint 42]
        ∈ (addfieldsTable Val.vnone (PTable.mk ["x"] [[Val.vstr "v", Val.vstr "extra"]])
            [FieldDefinition.mk "a" (FieldValue.fixed (Val.vint 42)) Option.none]).rows
    ∧ ([Val.vstr "v", Val.vint 42] : List Val).length
        = (addfieldsTable Val.vnone (PTable.mk ["x"] [[Val.vstr "v", Val.vstr "extra"]])
            [FieldDefinition.mk "a" (FieldValue.fixed (Val.vint 42)) Option.none]).header.length :=
  ⟨by decide, addfields_rows_match_header_length _ _ _ _ (by decide)⟩

theorem pfEq_self (x : PyFloat) (hx : x ≠ PyFloat.nan) : pfEq x x = true := by
  cases x with
  | finite q => simp [pfEq]
  | nan => exact absurd rfl hx

theorem pfEq_nan_right (x : PyFloat) : pfEq x PyFloat.nan = false := by
  cases x <;> rfl

theorem pfLe_nan_right (x : PyFloat) : pfLe x PyFloat.nan = false := by
  cases x <;> rfl

theorem pfLe_nan_left (y : PyFloat) : pfLe PyFloat.nan y = false := by
  cases y <;> rfl

theorem keyEq_self (k : CacheKey) (h1 : k.1 ≠ PyFloat.nan) (h2 : k.2.1 ≠ PyFloat.nan) :
    keyEq k k = true := by
  simp [keyEq, pfEq_self k.1 h1, pfEq_self k.2.1 h2]

theorem keyEq_nan (p k : CacheKey) (h : k.1 = PyFloat.nan ∨ k.2.1 = PyFloat.nan) :
    keyEq p k = false := by
  rcases h with h | h <;> rw [keyEq, h, pfEq_nan_right] <;> simp

/-- A NaN-bearing key is found in no cache, whatever the cache holds. -/
theorem cacheLookup_nan (cache : FeatureCache) (k : CacheKey)
    (h : k.1 = PyFloat.nan ∨ k.2.1 = PyFloat.nan) :
    cacheLookup cache k = none := by
  have hf : cache.find? (fun p => keyEq p.1 k) = none :=
    List.find?_eq_none.mpr (fun p _ => by simp [keyEq_nan p.1 k h])
  simp [cacheLookup, hf]

theorem cacheLookup_cons_self (k : CacheKey) (v : Option Feature) (c : FeatureCache)
    (hk : keyEq k k = true) :
    cacheLookup ((k, v) :: c) k = some v := by
  simp [cacheLookup, List.find?, hk]

/-- A NaN coordinate lies in no bounding box: every comparison with it is
false, so the candidate scan of the index is empty. -/
theorem containsPoint_nan (b : BBox) (x y : PyFloat)
    (h : x = PyFloat.nan ∨ y = PyFloat.nan) :
    b.containsPoint x y = false := by
  rcases h with h | h <;> subst h <;>
    simp [BBox.containsPoint, pfLe_nan_right, pfLe_nan_left]

theorem pyRound_ne_nan (n : Nat) (p : PyFloat) (hp : p ≠ PyFloat.nan) :
    pyRound n p ≠ PyFloat.nan := by
  cases p with
  | finite q => simp [pyRound]
  | nan => exact absurd rfl hp

/-- Inversion of `resolvedKey`: a resolved key comes from two successful
`float` conversions, rounded. -/
theorem resolvedKey_inv (version : String) (ndigits : Nat) (latv lngv : Val) (k : CacheKey)
    (hk : resolvedKey version ndigits latv lngv = some k) :
    ∃ p1 p2, pyFloatParse latv = some p1 ∧ pyFloatParse lngv = some p2
      ∧ k = (pyRound ndigits p1, pyRound ndigits p2, version) := by
  unfold resolvedKey at hk
  cases h1 : pyFloatParse latv with
  | none =>
    rw [h1] at hk
    exact Option.noConfusion hk
  | some p1 =>
    cases h2 : pyFloatParse lngv with
    | none =>
      rw [h1, h2] at hk
      exact Option.noConfusion hk
    | some p2 =>
      rw [h1, h2] at hk
      exact ⟨p1, p2, rfl, rfl, (Option.some.inj hk).symm⟩

/-- A value that converts (`pyFloatParse` succeeds) but is not finite is
NaN. -/
theorem parse_nan_of_finite_none (v : Val) (p : PyFloat)
    (h1 : pyFloatFinite v = none) (h2 : pyFloatParse v = some p) : p = PyFloat.nan := by
  cases v with
  | vnone => exact absurd h2 (by simp [pyFloatParse])
  | vstr s => exact absurd h2 (by simp [pyFloatParse])
  | vint n => exact absurd h1 (by simp [pyFloatFinite])
  | vnum q => exact absurd h1 (by simp [pyFloatFinite])
  | vnan => simpa [pyFloatParse] using h2.symm

/-- The values that convert to a finite float are exactly those whose
conversion neither raises nor yields NaN — documenting how the finite
classifier of C9 relates to the full conversion used by the resolver. -/
theorem pyFloatFinite_none_iff (v : Val) :
    pyFloatFinite v = none ↔ (pyFloatParse v = none ∨ pyFloatParse v = some PyFloat.nan) := by
  cases v <;> simp [pyFloatFinite, pyFloatParse]

/-- Unfolding lemma for `find_feature` once the cache key is resolved. -/
theorem find_feature_key_eq (contains : Feature → PyFloat → PyFloat → Bool) (idx : List Feature)
    (version : String) (ndigits : Nat) (cache : FeatureCache) (latv lngv : Val) (k : CacheKey)
    (hk : resolvedKey version ndigits latv lngv = some k) :
    find_feature contains idx version ndigits cache latv lngv
      = match cacheLookup cache k with
        | some cached => FinderResult.mk cached cache false
        | none =>
          match (idx.filter (fun f => f.bbox.containsPoint k.2.1 k.1)).find? (fun f => contains f k.2.1 k.1) with
          | some f => FinderResult.mk (some f) ((k, some f) :: cache) true
          | none => FinderResult.mk none ((k, none) :: cache) true := by
  unfold find_feature
  rw [hk]

/-- After one `_finder` call whose coordinates resolve to a NaN-free key
`k`, the cache holds the call's outcome under `k` (whether it was already
cached, freshly matched, or an explicit "none"). -/
theorem find_feature_caches_key (contains : Feature → PyFloat → PyFloat → Bool)
    (idx : List Feature) (version : String) (ndigits : Nat) (cache : FeatureCache)
    (latv lngv : Val) (k : CacheKey)
    (hk : resolvedKey version ndigits latv lngv = some k)
    (h1 : k.1 ≠ PyFloat.nan) (h2 : k.2.1 ≠ PyFloat.nan) :
    cacheLookup (find_feature contains idx version ndigits cache latv lngv).cache k
      = some (find_feature contains idx version ndigits cache latv lngv).found := by
  rw [find_feature_key_eq contains idx version ndigits cache latv lngv k hk]
  cases hc : cacheLookup cache k with
  | some cached => exact hc
  | none =>
    cases hf : (idx.filter (fun f => f.bbox.containsPoint k.2.1 k.1)).find? (fun f => contains f k.2.1 k.1) with
    | some f => exact cacheLookup_cons_self _ _ _ (keyEq_self k h1 h2)
    | none => exact cacheLookup_cons_self _ _ _ (keyEq_self k h1 h2)

/-- C2 counterexample: a coordinate cell that `float` converts to NaN
(the guard catches only ValueError) defeats the claim's caching: the
first resolution queries the bounding-box index and stores an entry, but
the NaN key compares unequal to every stored key, so the second
resolution of the same row misses the cache, queries the index *again*
(`queriedIndex = true`, where the claim requires `false`) and appends a
second entry. -/
theorem find_feature_nan_requeries_index :
    (find_feature (fun _ _ _ => true) [Feature.mk 1 (BBox.mk 0 0 10 10)] "v" 4 []
        Val.vnan Val.vnan).queriedIndex = true
    ∧ (find_feature (fun _ _ _ => true) [Feature.mk 1 (BBox.mk 0 0 10 10)] "v" 4
        ((find_feature (fun _ _ _ => true) [Feature.mk 1 (BBox.mk 0 0 10 10)] "v" 4 []
            Val.vnan Val.vnan).cache)
        Val.vnan Val.vnan).queriedIndex = true
    ∧ (find_feature (fun _ _ _ => true) [Feature.mk 1 (BBox.mk 0 0 10 10)] "v" 4 []
        Val.vnan Val.vnan).cache.length = 1
    ∧ (find_feature (fun _ _ _ => true) [Feature.mk 1 (BBox.mk 0 0 10 10)] "v" 4
        ((find_feature (fun _ _ _ => true) [Feature.mk 1 (BBox.mk 0 0 10 10)] "v" 4 []
            Val.vnan Val.vnan).cache)
        Val.vnan Val.vnan).cache.length = 2
    ∧ (find_feature (fun _ _ _ => true) [Feature.mk 1 (BBox.mk 0 0 10 10)] "v" 4
        ((find_feature (fun _ _ _ => true) [Feature.mk 1 (BBox.mk 0 0 10 10)] "v" 4 []
            Val.vnan Val.vnan).cache)
        Val.vnan Val.vnan).found
      = (find_feature (fun _ _ _ => true) [Feature.mk 1 (BBox.mk 0 0 10 10)] "v" 4 []
          Val.vnan Val.vnan).found := by
  refine ⟨rfl, rfl, rfl, rfl, rfl⟩

/-- C2 amended: for a fixed loaded region collection and version, and for
rows whose coordinates do not convert to NaN (they convert to finite
floats, or the conversion raises), resolution is deterministic and
idempotent — the first resolution stores the outcome (matched region or
explicit "none") under the key (roundedLat, roundedLng, version), and the
second resolution returns that cached outcome without querying the
bounding-box index again.  A NaN coordinate slips past the ValueError
guard and its cache key never matches, so such rows re-query the index on
every resolution (see the counterexample). -/
theorem find_feature_cached_unless_nan (contains : Feature → PyFloat → PyFloat → Bool)
    (idx : List Feature) (version : String) (ndigits : Nat) (cache : FeatureCache)
    (latv lngv : Val)
    (hlat : pyFloatParse latv ≠ some PyFloat.nan)
    (hlng : pyFloatParse lngv ≠ some PyFloat.nan) :
    (find_feature contains idx version ndigits
        (find_feature contains idx version ndigits cache latv lngv).cache latv lngv).found
      = (find_feature contains idx version ndigits cache latv lngv).found
    ∧ (find_feature contains idx version ndigits
        (find_feature contains idx version ndigits cache latv lngv).cache latv lngv).queriedIndex
      = false
    ∧ ∀ k, resolvedKey version ndigits latv lngv = some k →
        cacheLookup (find_feature contains idx version ndigits cache latv lngv).cache k
          = some (find_feature contains idx version ndigits cache latv lngv).found := by
  have hknan : ∀ k, resolvedKey version ndigits latv lngv = some k →
      k.1 ≠ PyFloat.nan ∧ k.2.1 ≠ PyFloat.nan := by
    intro k hk
    obtain ⟨p1, p2, hp1, hp2, rfl⟩ := resolvedKey_inv version ndigits latv lngv k hk
    exact ⟨pyRound_ne_nan ndigits p1 (fun h => hlat (h ▸ hp1)),
           pyRound_ne_nan ndigits p2 (fun h => hlng (h ▸ hp2))⟩
  refine ⟨?_, ?_, fun k hk =>
    find_feature_caches_key contains idx version ndigits cache latv lngv k hk
      (hknan k hk).1 (hknan k hk).2⟩
  all_goals cases hk : resolvedKey version ndigits latv lngv with
  | none => simp [find_feature, hk]
  | some key =>
    have hcache := find_feature_caches_key contains idx version ndigits cache latv lngv key hk
      (hknan key hk).1 (hknan key hk).2
    generalize find_feature contains idx version ndigits cache latv lngv = r1 at hcache ⊢
    rw [find_feature_key_eq contains idx version ndigits r1.cache latv lngv key hk, hcache]

/-- Witness for the amended C2 at a concrete index, finite point and
empty initial cache. -/
theorem find_feature_cached_unless_nan_witness :
    pyFloatParse (Val.vnum 1) ≠ some PyFloat.nan
    ∧ pyFloatParse (Val.vnum 2) ≠ some PyFloat.nan
    ∧ (find_feature (fun _ _ _ => true) [Feature.mk 1 (BBox.mk 0 0 10 10)] "v" 4
        ((find_feature (fun _ _ _ => true) [Feature.mk 1 (BBox.mk 0 0 10 10)] "v" 4 []
            (Val.vnum 1) (Val.vnum 2)).cache)
        (Val.vnum 1) (Val.vnum 2)).found
      = (find_feature (fun _ _ _ => true) [Feature.mk 1 (BBox.mk 0 0 10 10)] "v" 4 []
          (Val.vnum 1) (Val.vnum 2)).found
    ∧ (find_feature (fun _ _ _ => true) [Feature.mk 1 (BBox.mk 0 0 10 10)] "v" 4
        ((find_feature (fun _ _ _ => true) [Feature.mk 1 (BBox.mk 0 0 10 10)] "v" 4 []
            (Val.vnum 1) (Val.vnum 2)).cache)
        (Val.vnum 1) (Val.vnum 2)).queriedIndex
      = false
    ∧ cacheLookup (find_feature (fun _ _ _ => true) [Feature.mk 1 (BBox.mk 0 0 10 10)] "v" 4 []
          (Val.vnum 1) (Val.vnum 2)).cache
          (pyRound 4 (PyFloat.finite 1), pyRound 4 (PyFloat.finite 2), "v")
      = some (find_feature (fun _ _ _ => true) [Feature.mk 1 (BBox.mk 0 0 10 10)] "v" 4 []
          (Val.vnum 1) (Val.vnum 2)).found :=
  have h := find_feature_cached_unless_nan (fun _ _ _ => true)
    [Feature.mk 1 (BBox.mk 0 0 10 10)] "v" 4 [] (Val.vnum 1) (Val.vnum 2)
    (by decide) (by decide)
  ⟨by decide, by decide, h.1, h.2.1,
   h.2.2 (pyRound 4 (PyFloat.finite 1), pyRound 4 (PyFloat.finite 2), "v") rfl⟩

/-- C9: when either coordinate of the row is not a finite number, the
resolver returned by `find_feature` returns the unresolved outcome
(`none`) rather than any region — via the raising-conversion return for
unparsable values, and via the empty candidate scan for NaN, which lies
in no bounding box. -/
theorem find_feature_nonfinite_returns_none (contains : Feature → PyFloat → PyFloat → Bool)
    (idx : List Feature) (version : String) (ndigits : Nat) (cache : FeatureCache)
    (latv lngv : Val)
    (h : pyFloatFinite latv = none ∨ pyFloatFinite lngv = none) :
    (find_feature contains idx version ndigits cache latv lngv).found = none := by
  cases hk : resolvedKey version ndigits latv lngv with
  | none =>
    unfold find_feature
    rw [hk]
  | some key =>
    obtain ⟨p1, p2, hp1, hp2, hkey⟩ := resolvedKey_inv version ndigits latv lngv key hk
    have hnan : key.1 = PyFloat.nan ∨ key.2.1 = PyFloat.nan := by
      rcases h with h | h
      · left
        have hp : p1 = PyFloat.nan := parse_nan_of_finite_none latv p1 h hp1
        rw [hkey]
        simp [hp, pyRound]
      · right
        have hp : p2 = PyFloat.nan := parse_nan_of_finite_none lngv p2 h hp2
        rw [hkey]
        simp [hp, pyRound]
    rw [find_feature_key_eq contains idx version ndigits cache latv lngv key hk]
    rw [cacheLookup_nan cache key hnan]
    have hfil : idx.filter (fun f => f.bbox.containsPoint key.2.1 key.1) = [] := by
      refine List.filter_eq_nil_iff.mpr (fun f _ => ?_)
      rcases hnan with h1 | h1
      · simp [containsPoint_nan f.bbox key.2.1 key.1 (Or.inr h1)]
      · simp [containsPoint_nan f.bbox key.2.1 key.1 (Or.inl h1)]
    rw [hfil]
    rfl

/-- Witness for C9 at a concrete unparsable latitude. -/
theorem find_feature_nonfinite_returns_none_witness :
    (pyFloatFinite (Val.vstr "abc") = none ∨ pyFloatFinite (Val.vnum 0) = none)
    ∧ (find_feature (fun _ _ _ => true) [Feature.mk 1 (BBox.mk 0 0 10 10)] "v" 4 []
        (Val.vstr "abc") (Val.vnum 0)).found = none :=
  ⟨Or.inl rfl,
   find_feature_nonfinite_returns_none (fun _ _ _ => true) [Feature.mk 1 (BBox.mk 0 0 10 10)]
     "v" 4 [] (Val.vstr "abc") (Val.vnum 0) (Or.inl rfl)⟩

theorem pyAbs_eq_abs (q : Rat) : pyAbs q = |q| := by
  unfold pyAbs
  split
  · exact (abs_of_neg (by assumption)).symm
  · exact (abs_of_nonneg (le_of_not_lt (by assumption))).symm

theorem filter_replicate_none (n : Nat) :
    (List.replicate n (none : Option DbRow)).filter pyTruthyOpt = [] := by
  induction n with
  | zero => rfl
  | succ n ih => simp [List.replicate_succ, List.filter_cons, pyTruthyOpt, ih]

theorem reduceOption_map_some (l : List DbRow) : (l.map some).reduceOption = l := by
  induction l with
  | nil => rfl
  | cons x xs ih => simp [List.reduceOption_cons_of_some, ih]

/-- Joining the truthiness-filtered groups of `grouperGo` recovers the
underlying elements whenever every real element is truthy (the fill is
not). -/
theorem grouperGo_filter_join (k : Nat) :
    ∀ (fuel : Nat) (l : List (Option DbRow)), l.length ≤ fuel →
      (∀ o ∈ l, pyTruthyOpt o = true) →
      ((grouperGo k (none : Option DbRow) fuel l).map
          (fun g => (g.filter pyTruthyOpt).reduceOption)).flatten
        = l.reduceOption := by
  intro fuel
  induction fuel with
  | zero =>
    intro l hl _
    have hnil : l = [] := List.length_eq_zero.mp (Nat.le_zero.mp hl)
    subst hnil
    simp [grouperGo]
  | succ n ih =>
    intro l hl h
    cases l with
    | nil => simp [grouperGo]
    | cons x xs =>
      rw [grouperGo]
      have hx : pyTruthyOpt x = true := h x (by simp)
      have htake : (xs.take k).filter pyTruthyOpt = xs.take k :=
        List.filter_eq_self.mpr (fun o ho => h o (List.mem_cons_of_mem x (List.take_subset k xs ho)))
      have hdrop : ((grouperGo k (none : Option DbRow) n (xs.drop k)).map
          (fun g => (g.filter pyTruthyOpt).reduceOption)).flatten = (xs.drop k).reduceOption := by
        refine ih (xs.drop k) ?_ ?_
        · simp only [List.length_drop]
          simp only [List.length_cons] at hl
          omega
        · exact fun o ho => h o (List.mem_cons_of_mem x (List.drop_subset k xs ho))
      have hchunk : (x :: (xs.take k ++ List.replicate (k - xs.length)
            (none : Option DbRow))).filter pyTruthyOpt = x :: xs.take k := by
        rw [List.filter_cons, if_pos hx, List.filter_append, htake, filter_replicate_none,
          List.append_nil]
      simp only [List.map_cons, List.flatten_cons, hchunk, hdrop]
      rw [← List.reduceOption_append, List.cons_append, List.take_append_drop]

/-- Every group emitted by `grouperGo` has exactly `k + 1` elements
(short tails are padded with the fill value). -/
theorem grouperGo_group_length {α : Type} (k : Nat) (fill : α) :
    ∀ (fuel : Nat) (l : List α), ∀ g ∈ grouperGo k fill fuel l, g.length = k + 1 := by
  intro fuel
  induction fuel with
  | zero =>
    intro l g hg
    cases l <;> simp [grouperGo] at hg
  | succ n ih =>
    intro l g hg
    cases l with
    | nil => simp [grouperGo] at hg
    | cons x xs =>
      rw [grouperGo] at hg
      rcases List.mem_cons.mp hg with hg | hg
      · subst hg
        simp only [List.length_cons, List.length_append, List.length_take, List.length_replicate]
        omega
      · exact ih (xs.drop k) g hg

/-- With at least two columns, `values(columns)` yields non-empty tuples,
which are always truthy. -/
theorem tableValues_row_truthy (t : PTable) (hc : 2 ≤ t.header.length) :
    ∀ r ∈ tableValues t, r.truthy = true := by
  intro r hr
  have h1 : ¬ t.header.length = 1 := by omega
  simp only [tableValues, if_neg h1, List.mem_map] at hr
  obtain ⟨r0, _, rfl⟩ := hr
  simp only [DbRow.truthy, decide_eq_true_eq]
  intro hemp
  have hlen := congrArg List.length hemp
  simp only [List.length_map, List.length_nil] at hlen
  omega

/-- C3 counterexample: the claim quantifies over every table with a
non-empty column list, but with a *single* column petl's
`values(columns)` yields bare cell values (`operator.itemgetter` with one
index), and `filter(None, row_group)` — meant to strip the grouper's
padding — equally drops falsy cell values: here the empty-string row is
silently never sent, so the concatenation of the executed batches is not
the table's value sequence. -/
theorem todb_upsert_drops_falsy_single_column :
    tableValues (PTable.mk ["a"] [[Val.vstr "x"], [Val.vstr ""], [Val.vstr "y"]])
      = [DbRow.scalar (Val.vstr "x"), DbRow.scalar (Val.vstr ""), DbRow.scalar (Val.vstr "y")]
    ∧ (todb_upsert 2 (PTable.mk ["a"] [[Val.vstr "x"], [Val.vstr ""], [Val.vstr "y"]])).flatten
      = [DbRow.scalar (Val.vstr "x"), DbRow.scalar (Val.vstr "y")]
    ∧ (todb_upsert 2 (PTable.mk ["a"] [[Val.vstr "x"], [Val.vstr ""], [Val.vstr "y"]])).flatten
      ≠ tableValues (PTable.mk ["a"] [[Val.vstr "x"], [Val.vstr ""], [Val.vstr "y"]]) :=
  ⟨by decide, by decide, by decide⟩

/-- C3 amended: for every table with at least *two* columns and every
`group_size ≥ 1`, `todb_upsert` sends consecutive batches of at most
`group_size` rows, in input order, and — after the final group's `None`
padding is filtered out — the concatenation of the executed batches is
exactly the table's value-tuple sequence: every row is sent exactly once.
(With a single column, petl yields bare cell values and the padding
filter also drops the falsy ones — see the counterexample.) -/
theorem todb_upsert_sends_each_row_once (group_size : Nat) (t : PTable)
    (hn : 1 ≤ group_size) (hc : 2 ≤ t.header.length) :
    (todb_upsert group_size t).flatten = tableValues t
    ∧ ∀ b ∈ todb_upsert group_size t, b.length ≤ group_size := by
  obtain ⟨k, rfl⟩ : ∃ k, group_size = k + 1 := ⟨group_size - 1, by omega⟩
  have htruthy : ∀ o ∈ (tableValues t).map some, pyTruthyOpt o = true := by
    intro o ho
    simp only [List.mem_map] at ho
    obtain ⟨r, hr, rfl⟩ := ho
    simpa [pyTruthyOpt] using tableValues_row_truthy t hc r hr
  constructor
  · rw [show todb_upsert (k + 1) t
        = (grouperGo k (none : Option DbRow) ((tableValues t).map some).length
            ((tableValues t).map some)).map
            (fun g => (g.filter pyTruthyOpt).reduceOption) from rfl]
    rw [grouperGo_filter_join k ((tableValues t).map some).length ((tableValues t).map some)
      le_rfl htruthy]
    exact reduceOption_map_some _
  · intro b hb
    simp only [todb_upsert, todb_upsert_batches, grouper, List.mem_map] at hb
    obtain ⟨g, hg, rfl⟩ := hb
    have hglen := grouperGo_group_length k (none : Option DbRow)
      ((tableValues t).map some).length ((tableValues t).map some) g hg
    calc (g.filter pyTruthyOpt).reduceOption.length
        ≤ (g.filter pyTruthyOpt).length := List.reduceOption_length_le _
      _ ≤ g.length := List.length_filter_le _ _
      _ = k + 1 := hglen

/-- Witness for the amended C3 at a concrete two-column, three-row table
and group size 2. -/
theorem todb_upsert_sends_each_row_once_witness :
    (todb_upsert 2 (PTable.mk ["a", "b"]
        [[Val.vint 1, Val.vint 2], [Val.vint 3, Val.vint 4], [Val.vint 5, Val.vint 6]])).flatten
      = tableValues (PTable.mk ["a", "b"]
        [[Val.vint 1, Val.vint 2], [Val.vint 3, Val.vint 4], [Val.vint 5, Val.vint 6]])
    ∧ ∀ b ∈ todb_upsert 2 (PTable.mk ["a", "b"]
        [[Val.vint 1, Val.vint 2], [Val.vint 3, Val.vint 4], [Val.vint 5, Val.vint 6]]),
        b.length ≤ 2 :=
  todb_upsert_sends_each_row_once 2 (PTable.mk ["a", "b"]
      [[Val.vint 1, Val.vint 2], [Val.vint 3, Val.vint 4], [Val.vint 5, Val.vint 6]])
    (by decide) (by decide)


/-- C4 counterexample: the claim that the store connection is released on
*every* exit path fails on the code.  Both generator-based context
managers lack a try/finally, so a body that raises leaves the connection
exactly as acquired: open and with the transaction pending — neither
committed nor closed. -/
theorem transaction_leaks_connection_on_raise :
    ((transaction (fun s => ((BodyOutcome.raises : BodyOutcome Unit), s))).2.isOpen = true
      ∧ (transaction (fun s => ((BodyOutcome.raises : BodyOutcome Unit), s))).2.committed = false)
    ∧ ((db_conn (fun s => ((BodyOutcome.raises : BodyOutcome Unit), s))).2.isOpen = true
      ∧ (db_conn (fun s => ((BodyOutcome.raises : BodyOutcome Unit), s))).2.committed = false) :=
  ⟨⟨rfl, rfl⟩, ⟨rfl, rfl⟩⟩

/-- C4 amended: `transaction` and `db_conn` commit and close the store
connection when the managed body completes normally; when the body raises
mid-stream, the code after the `yield` never runs, so the connection is
left exactly as the body left it — the exit path of an exception performs
neither commit nor rollback nor close. -/
theorem transaction_releases_only_on_normal_exit {α : Type}
    (body : ConnState → BodyOutcome α × ConnState) :
    (∀ a s, body (ConnState.mk true false) = (BodyOutcome.completes a, s) →
      (transaction body).2 = ConnState.mk false true
        ∧ (db_conn body).2 = ConnState.mk false true)
    ∧ (∀ s, body (ConnState.mk true false) = (BodyOutcome.raises, s) →
      (transaction body).2 = s ∧ (db_conn body).2 = s) := by
  constructor
  · intro a s h
    constructor <;> simp [transaction, db_conn, h, ConnState.commit, ConnState.close]
  · intro s h
    constructor <;> simp [transaction, db_conn, h]

/-- Witness for the amended C4 at concrete completing and raising bodies. -/
theorem transaction_releases_only_on_normal_exit_witness :
    ((transaction (fun s => (BodyOutcome.completes (0 : Nat), s))).2 = ConnState.mk false true
      ∧ (db_conn (fun s => (BodyOutcome.completes (0 : Nat), s))).2 = ConnState.mk false true)
    ∧ ((transaction (fun s => ((BodyOutcome.raises : BodyOutcome Nat), s))).2
          = ConnState.mk true false
      ∧ (db_conn (fun s => ((BodyOutcome.raises : BodyOutcome Nat), s))).2
          = ConnState.mk true false) :=
  ⟨(transaction_releases_only_on_normal_exit (fun s => (BodyOutcome.completes (0 : Nat), s))).1
      0 (ConnState.mk true false) rfl,
   (transaction_releases_only_on_normal_exit
      (fun s => ((BodyOutcome.raises : BodyOutcome Nat), s))).2 (ConnState.mk true false) rfl⟩

/-- C5 counterexample: in one `addfields` call, the code evaluates the
computed field "b" on the *source* record — `Record(row, flds)` with the
source header — so its lookup of the just-inserted field "a" finds
nothing and yields the marker "missing", while the claim's reading (the
row bound to the header active at computation time, `specAddFieldsTable`)
would let "b" read the inserted 42.  The two disagree on this input. -/
theorem addfields_later_field_reads_missing :
    (addfieldsTable Val.vnone (PTable.mk ["x"] [[Val.vstr "v"]]) c5Fields).rows
      = [[Val.vstr "v", Val.vint 42, Val.vstr "missing"]]
    ∧ (specAddFieldsTable Val.vnone (PTable.mk ["x"] [[Val.vstr "v"]]) c5Fields).rows
      = [[Val.vstr "v", Val.vint 42, Val.vint 42]]
    ∧ (addfieldsTable Val.vnone (PTable.mk ["x"] [[Val.vstr "v"]]) c5Fields).rows
      ≠ (specAddFieldsTable Val.vnone (PTable.mk ["x"] [[Val.vstr "v"]]) c5Fields).rows :=
  ⟨rfl, rfl, by decide⟩

/-- C5 amended: every computed field value is invoked with the row bound
to the *source* header of the call (`Record(row, flds)` built from the
unmodified input row): a computed definition behaves exactly like a fixed
field holding its function applied to the source row, wherever it stands
in the definition list — so a later definition's function can read the
source fields by name but never the values inserted earlier in the same
call. -/
theorem addfields_computed_uses_source_record (flds : List String) (row : List Val)
    (pre post : List (FieldDefinition × Int)) (nm : String)
    (f : List String → List Val → Val) (oi : Option Int) (i : Int) :
    addFieldsRow flds (pre ++ (FieldDefinition.mk nm (FieldValue.computed f) oi, i) :: post) row
      = addFieldsRow flds
          (pre ++ (FieldDefinition.mk nm (FieldValue.fixed (f flds row)) oi, i) :: post) row := by
  simp only [addFieldsRow, List.foldl_append, List.foldl_cons, evalFieldValue]

/-- C6: the stored field-definition generator is exhausted by the first
`__iter__` (the `*self.fields` unpacking), so re-iterating the same
`AddFieldsView` does *not* reproduce the first iteration: the second pass
yields the stack-normalized source unchanged, with the added fields and
the extended header silently gone. -/
theorem addfieldsview_second_iteration_drops_fields :
    (c6View.iterate.1.header = ["x", "a"]
      ∧ c6View.iterate.1.rows = [[Val.vstr "1", Val.vint 42]])
    ∧ (c6View.iterate.2.iterate.1.header = ["x"]
      ∧ c6View.iterate.2.iterate.1.rows = [[Val.vstr "1"]])
    ∧ c6View.iterate.2.iterate.1 ≠ c6View.iterate.1 :=
  ⟨⟨rfl, rfl⟩, ⟨rfl, rfl⟩, by decide⟩

/-- C7: `filter_outliers` computes the median and the median absolute
deviation of the values and returns exactly those values `v` with
`|v - m| ≤ scale × MAD`, preserving input order; in particular
`filter_outliers [1,2,3,4,100] 2 = [1,2,3,4]`, removing 100 as a MAD
outlier. -/
theorem filter_outliers_mad :
    (∀ (values : List Rat) (scale : Rat),
      filter_outliers values scale = filterOutliersSpec values scale)
    ∧ filter_outliers [1, 2, 3, 4, 100] 2 = [1, 2, 3, 4] := by
  constructor
  · intro values scale
    simp only [filter_outliers, filterOutliersSpec, pyAbs_eq_abs]
    refine List.filter_congr ?_
    intro v _
    simp only [decide_eq_decide]
    rw [mul_comm]
  · norm_num [filter_outliers, npMedian, sortAsc, insertSorted, pyAbs, List.filter]

/-- The error-accumulating fold of `validate_trip_lengths` appends exactly
one message per pair failing the tolerance test, in pair order. -/
theorem foldl_violations_eq_filter_map (l : List (GroupStats × GroupStats)) :
    ∀ acc : List String,
      l.foldl (fun errs p =>
        if pyAbs (p.1.mean - p.2.mean) ≤ min p.1.std p.2.std then errs
        else errs ++ [violationMessage p.1.source p.2.source]) acc
      = acc ++ (l.filter
            (fun p => decide (min p.1.std p.2.std < pyAbs (p.1.mean - p.2.mean)))).map
          (fun p => violationMessage p.1.source p.2.source) := by
  induction l with
  | nil => intro acc; simp
  | cons x xs ih =>
    intro acc
    by_cases hx : pyAbs (x.1.mean - x.2.mean) ≤ min x.1.std x.2.std
    · have hdec : decide (min x.1.std x.2.std < pyAbs (x.1.mean - x.2.mean)) = false :=
        decide_eq_false (not_lt.mpr hx)
      simp only [List.foldl_cons, if_pos hx, List.filter_cons, hdec, Bool.false_eq_true,
        if_false]
      exact ih acc
    · have hdec : decide (min x.1.std x.2.std < pyAbs (x.1.mean - x.2.mean)) = true :=
        decide_eq_true (not_le.mp hx)
      simp only [List.foldl_cons, if_neg hx, List.filter_cons, hdec, if_true, List.map_cons]
      rw [ih]
      simp

/-- C8: `validate_trip_lengths` returns the per-group statistics table
together with the violation list holding exactly one message for each
unordered pair of groups whose filtered-sample means differ by more than
the smaller of the two standard deviations, and no message for any other
pair; the findings are returned as a value — the function is total and
never raises on finding violations. -/
theorem validate_trip_lengths_pairs (sqrtFn : Rat → Rat) (groups : List (String × List Rat)) :
    validate_trip_lengths sqrtFn groups
      = (tripStats sqrtFn groups, validateSpecErrors (tripStats sqrtFn groups)) := by
  simp only [validate_trip_lengths, validateSpecErrors]
  rw [foldl_violations_eq_filter_map]
  simp [pyAbs_eq_abs]

/-- C10: the added `Anonymized <field>` value is `None` exactly when the
row's raw value is falsy; a truthy raw value present in the loaded
mapping produces its surrogate integer identifier; and for raw CSV values
(strings) the raw value itself never appears in the added column. -/
theorem anonymize_value_surrogate (mapping : Val → Option Int) (raw : Val) :
    (anonymizeValue mapping raw = AnonResult.value Val.vnone ↔ pyTruthy raw = false)
    ∧ (∀ i : Int, pyTruthy raw = true → mapping raw = some i →
        anonymizeValue mapping raw = AnonResult.value (Val.vint i))
    ∧ (∀ s : String, raw = Val.vstr s → anonymizeValue mapping raw ≠ AnonResult.value raw) := by
  refine ⟨?_, ?_, ?_⟩
  · cases hm : mapping raw <;> by_cases h : pyTruthy raw = true <;>
      simp [anonymizeValue, h, hm]
  · intro i ht hm
    simp [anonymizeValue, ht, hm]
  · intro s hs
    subst hs
    by_cases ht : pyTruthy (Val.vstr s) = true
    · cases hm : mapping (Val.vstr s) <;> simp [anonymizeValue, ht, hm]
    · simp [anonymizeValue, ht]

/-- Witness for C10 at a concrete mapping and medallion value. -/
theorem anonymize_value_surrogate_witness :
    (anonymizeValue (fun v => if v = Val.vstr "M1" then some 7 else none) (Val.vstr "M1")
        = AnonResult.value Val.vnone ↔ pyTruthy (Val.vstr "M1") = false)
    ∧ anonymizeValue (fun v => if v = Val.vstr "M1" then some 7 else none) (Val.vstr "M1")
        = AnonResult.value (Val.vint 7)
    ∧ anonymizeValue (fun v => if v = Val.vstr "M1" then some 7 else none) (Val.vstr "M1")
        ≠ AnonResult.value (Val.vstr "M1") :=
  have h := anonymize_value_surrogate
    (fun v => if v = Val.vstr "M1" then some 7 else none) (Val.vstr "M1")
  ⟨h.1, h.2.1 7 (by decide) (by decide), h.2.2 "M1" rfl⟩

end TripData
